import Mathlib

/-!
# bust_shm_exit: a verification development

Shallow embedding of `bust_shm_exit.c` (a single C file) and proofs of its
specified properties.

* C strings are lists of characters (the bytes before the terminating NUL).
* `unsigned long long` values are naturals reduced modulo `2 ^ 64`, `int`
  values are integers obtained with `toInt32`.
* Calls into the operating system are recorded in a trace of `Event`s; the
  answers of the operating system are parameters of the run (`OS`,
  `WorkerOS`, `ShmReply`), one answer per call site and loop iteration.
-/

namespace BustShmExit

/-! ## Machine integers -/

/-- Number of values of an `unsigned long long` (64 bits). -/
def ULL : Nat := 2 ^ 64

/-- Largest `unsigned long long`. -/
def ULLONG_MAX : Nat := 2 ^ 64 - 1

/-- Conversion of an unsigned value to a 32-bit `int` (two's complement wrap,
as gcc defines the conversion). -/
def toInt32 (n : Nat) : Int :=
  if n % 2 ^ 32 < 2 ^ 31 then ((n % 2 ^ 32 : Nat) : Int)
  else ((n % 2 ^ 32 : Nat) : Int) - 2 ^ 32

/-- Conversion of an `int` to `unsigned long` (64 bits). -/
def toULong (z : Int) : Nat := (z % 2 ^ 64).toNat

/-! ## The C library on strings -/

/-- Result of `strchr(str, c)` for the C string whose bytes are `str`: the
offset of the first occurrence of `c`, or `none` for a null pointer.  The
terminating NUL counts as part of the string. -/
def strchr : List Char → Char → Option Nat
  | [], c => if c = Char.ofNat 0 then some 0 else none
  | x :: xs, c => if x = c then some 0 else (strchr xs c).map (· + 1)

/-- White space of the C locale: space, `\t`, `\n`, `\v`, `\f`, `\r`. -/
def isspace (c : Char) : Bool :=
  c.toNat = 32 || (9 ≤ c.toNat && c.toNat ≤ 13)

/-- Value of a character as a digit: `0`-`9`, then letters of either case
from 10 up to 35. -/
def digitVal (c : Char) : Option Nat :=
  if 48 ≤ c.toNat ∧ c.toNat ≤ 57 then some (c.toNat - 48)
  else if 97 ≤ c.toNat ∧ c.toNat ≤ 122 then some (c.toNat - 97 + 10)
  else if 65 ≤ c.toNat ∧ c.toNat ≤ 90 then some (c.toNat - 65 + 10)
  else none

/-- Digit of `c` in the given base, if it is one. -/
def digitIn (base : Nat) (c : Char) : Option Nat :=
  match digitVal c with
  | some d => if d < base then some d else none
  | none => none

/-- Reads the longest run of digits of the given base from the front of the
string, accumulating on `acc`; the flag tells whether a digit was read. -/
def readDigits (base : Nat) : List Char → Nat → Bool → Nat × Bool
  | [], acc, any => (acc, any)
  | c :: cs, acc, any =>
    match digitIn base c with
    | some d => readDigits base cs (acc * base + d) true
    | none => (acc, any)

/-- Splits an optional sign off the front: the flag is true for `-`. -/
def splitSign : List Char → Bool × List Char
  | c :: cs => if c = '-' then (true, cs) else if c = '+' then (false, cs) else (false, c :: cs)
  | [] => (false, [])

/-- Base and digit string selected by `strtoull` once white space and sign
are gone: with base 0, `0x`/`0X` selects 16, a leading `0` selects 8, anything
else 10; with base 16 a `0x`/`0X` is skipped.  When `0x` is not followed by a
hexadecimal digit only the `0` is read. -/
def selectBase (base : Nat) (s : List Char) : Nat × List Char :=
  match s with
  | '0' :: x :: rest =>
    if (x = 'x' ∨ x = 'X') ∧ (base = 0 ∨ base = 16) then
      match rest with
      | h :: _ => if (digitIn 16 h).isSome then (16, rest) else (if base = 0 then 8 else base, s)
      | [] => (if base = 0 then 8 else base, s)
    else (if base = 0 then 8 else base, s)
  | '0' :: rest => (if base = 0 then 8 else base, '0' :: rest)
  | _ => (if base = 0 then 10 else base, s)

/-- Return value of the C library function `strtoull(nptr, NULL, base)`
(ISO C 7.22.1.4, C locale): skip white space, take an optional sign, pick the
base, read the digits.  No digits gives 0; a value above `ULLONG_MAX` gives
`ULLONG_MAX`; a minus sign negates the value in the unsigned type. -/
def strtoull (nptr : List Char) (base : Nat) : Nat :=
  let (neg, s) := splitSign (nptr.dropWhile isspace)
  let (b, ds) := selectBase base s
  let (v, _) := readDigits b ds 0 false
  if ULLONG_MAX < v then ULLONG_MAX
  else if neg then (ULL - v) % ULL
  else v

/-! ## `parse_size` -/

/-- The function `parse_size` of the source: the multiplier is chosen by the
two `strchr` tests, then multiplied in `unsigned long long`. -/
def parse_size (str : List Char) : Nat :=
  let multiplier : Nat :=
    if (strchr str 'k').isSome ∨ (strchr str 'K').isSome then 1000
    else if (strchr str 'm').isSome ∨ (strchr str 'M').isSome then 1000 * 1000
    else 1
  (strtoull str 0 * multiplier) % ULL

/-! ## Traces of operating-system calls -/

/-- The `#define LENGTH (64 * 1024)` of the source. -/
def LENGTH : Nat := 64 * 1024

/-- The `#define KEY_START 0x10000000` of the source. -/
def KEY_START : Nat := 0x10000000

/-- Linux value of `IPC_CREAT` (octal 01000). -/
def IPC_CREAT : Nat := 0o1000

/-- Linux value of `SHM_R` (octal 0400). -/
def SHM_R : Nat := 0o400

/-- Linux value of `SHM_W` (octal 0200). -/
def SHM_W : Nat := 0o200

/-- Linux value of the `shmctl` command `IPC_RMID`. -/
def IPC_RMID : Nat := 0

/-- Value of `PTHREAD_STACK_MIN` from `<limits.h>` (16384 on Linux/x86-64);
no proof depends on the number. -/
def PTHREAD_STACK_MIN : Nat := 16384

/-- Text written by the `fprintf(stderr, ...)` call of `main`. -/
def usageText : String := "Usage: bust_exit_shm <nr_segments> <nr_threads>\n"

/-- Start routines handed to `pthread_create`. -/
inductive Routine
  | do_nothing
  | doit
  deriving DecidableEq, Repr

/-- Calls that leave the program, with their arguments. -/
inductive Event
  /-- Call `shmget(key, size, shmflg)`. -/
  | shmget (key : Int) (size : Nat) (shmflg : Nat)
  /-- Call `shmat(shmid, NULL, 0)`. -/
  | shmat (shmid : Int)
  /-- Call `shmctl(shmid, cmd, NULL)`. -/
  | shmctl (shmid : Int) (cmd : Nat)
  /-- Call `perror(s)`. -/
  | perror (s : String)
  /-- Call `fprintf(stderr, text)`. -/
  | fprintf_stderr (text : String)
  /-- Call `getpid()`. -/
  | getpid
  /-- Call `pthread_attr_init(&attr)`. -/
  | attr_init
  /-- Call `pthread_attr_setstacksize(&attr, size)`. -/
  | attr_setstacksize (size : Nat)
  /-- Call `pthread_create(&tid, &attr, start, arg)`. -/
  | create (start : Routine) (arg : Nat)
  /-- Call `pthread_join(tid, NULL)`. -/
  | join (tid : Nat)
  /-- Call `usleep(usec)`. -/
  | usleep (usec : Nat)
  /-- Call `kill(pid, sig)`. -/
  | kill (pid : Int) (sig : Int)
  deriving DecidableEq, Repr

/-- How a piece of code ended. -/
inductive Outcome
  /-- Control reached the end of the code (the function returned). -/
  | done
  /-- The process was ended by `exit(status)` or by `main` returning. -/
  | exit (status : Int)
  /-- The loop was still going when the fuel of the model ran out. -/
  | running
  deriving DecidableEq, Repr

/-- A run: the calls made, in order, and the way the code ended. -/
structure Run where
  trace : List Event
  out : Outcome
  deriving DecidableEq, Repr

/-- The events `t` followed by the run `r`. -/
def Run.after (r : Run) (t : List Event) : Run := ⟨t ++ r.trace, r.out⟩

/-- Sequential composition: `k` runs only when `r` reached its end. -/
def Run.andThen (r : Run) (k : Run) : Run :=
  match r.out with
  | .done => ⟨r.trace ++ k.trace, k.out⟩
  | _ => r

/-! ## Answers of the operating system -/

/-- Answers to the two calls of one `new_shm_segment`: the value returned by
`shmget` and the address returned by `shmat` (`-1` stands for `(void *)-1`). -/
structure ShmReply where
  shmid : Int
  shmaddr : Int

/-- Answers seen by one execution of `doit`: the value returned by
`pthread_attr_setstacksize`, and for iteration `k` of the loop the value
returned by `pthread_create`, the thread handle it stored, and the value
returned by `kill`. -/
structure WorkerOS where
  setstacksize : Int
  create : Nat → Int
  tid : Nat → Nat
  kill : Nat → Int

/-- Answers seen by `main`: the pid returned by `getpid`, the answers for
segment `i`, the values returned by `pthread_attr_setstacksize` and
`pthread_create` in iteration `i` of the spawn loop, and the answers seen by
the `doit` that runs on the main thread. -/
structure OS where
  pid : Int
  shm : Nat → ShmReply
  setstacksize : Nat → Int
  create : Nat → Int
  self : WorkerOS

/-! ## The program -/

/-- The function `new_shm_segment` of the source. -/
def new_shm_segment (r : ShmReply) (key : Int) : Run :=
  let flags := SHM_R ||| SHM_W
  let shmid := r.shmid
  if shmid < 0 then
    ⟨[.shmget key LENGTH (IPC_CREAT ||| flags), .perror "shmget"], .exit 1⟩
  else
    let shmaddr := r.shmaddr
    if shmaddr = -1 then
      ⟨[.shmget key LENGTH (IPC_CREAT ||| flags), .shmat shmid,
        .perror "shmat", .shmctl shmid IPC_RMID], .exit 1⟩
    else
      ⟨[.shmget key LENGTH (IPC_CREAT ||| flags), .shmat shmid], .done⟩

/-- The `while (1)` loop of `doit`, from iteration `k` on, for at most `fuel`
iterations. -/
def doitLoop (w : WorkerOS) (parent_pid : Int) : Nat → Nat → Run
  | 0, _ => ⟨[], .running⟩
  | fuel + 1, k =>
    if w.create k ≠ 0 then
      ⟨[.create .do_nothing 0, .perror "pthread_create"], .exit 1⟩
    else if w.kill k ≠ 0 then
      ⟨[.create .do_nothing 0, .join (w.tid k), .usleep 1000, .kill parent_pid 0], .done⟩
    else
      (doitLoop w parent_pid fuel (k + 1)).after
        [.create .do_nothing 0, .join (w.tid k), .usleep 1000, .kill parent_pid 0]

/-- The function `doit` of the source; `junk` is its pointer argument as a
64-bit number. -/
def doit (w : WorkerOS) (junk : Nat) (fuel : Nat) : Run :=
  let parent_pid := toInt32 junk
  if w.setstacksize ≠ 0 then
    ⟨[.attr_init, .attr_setstacksize PTHREAD_STACK_MIN,
      .perror "pthread_attr_setstacksize"], .exit 1⟩
  else
    (doitLoop w parent_pid fuel 0).after [.attr_init, .attr_setstacksize PTHREAD_STACK_MIN]

/-- The key `KEY_START + i`, computed in `unsigned long long` and converted to
the `int` parameter of `new_shm_segment`. -/
def keyOf (i : Nat) : Int := toInt32 ((KEY_START + i) % ULL)

/-- The loop `for (i = 0; i < nr_segments; i++)` of `main` with `n` iterations
left, at index `i`. -/
def segLoop (os : OS) : Nat → Nat → Run
  | 0, _ => ⟨[], .done⟩
  | n + 1, i => (new_shm_segment (os.shm i) (keyOf i)).andThen (segLoop os n (i + 1))

/-- The loop `for (i = 0; i < nr_threads - 1; i++)` of `main` with `n`
iterations left, at index `i`. -/
def spawnLoop (os : OS) : Nat → Nat → Run
  | 0, _ => ⟨[], .done⟩
  | n + 1, i =>
    let arg := toULong os.pid
    if os.setstacksize i ≠ 0 then
      ⟨[.getpid, .attr_init, .attr_setstacksize PTHREAD_STACK_MIN,
        .perror "pthread_attr_setstacksize"], .exit 1⟩
    else if os.create i ≠ 0 then
      ⟨[.getpid, .attr_init, .attr_setstacksize PTHREAD_STACK_MIN,
        .create .doit arg, .perror "pthread_create"], .exit 1⟩
    else
      (spawnLoop os n (i + 1)).after
        [.getpid, .attr_init, .attr_setstacksize PTHREAD_STACK_MIN, .create .doit arg]

/-- Bound `nr_threads - 1` of the spawn loop, in `unsigned long long`. -/
def spawnBound (nr_threads : Nat) : Nat := (nr_threads + ULL - 1) % ULL

/-- The end of `main`: `doit(NULL); return 0;`. -/
def mainTail (w : WorkerOS) (fuel : Nat) : Run :=
  (doit w 0 fuel).andThen ⟨[], .exit 0⟩

/-- The function `main` of the source; `argv` holds the `argc` argument
strings, program name first, and `fuel` bounds the iterations of the `doit`
that runs on the main thread. -/
def main (os : OS) (argv : List (List Char)) (fuel : Nat) : Run :=
  if argv.length ≠ 3 then
    ⟨[.fprintf_stderr usageText], .exit 1⟩
  else
    let nr_segments := parse_size (argv.getD 1 [])
    let nr_threads := parse_size (argv.getD 2 [])
    (segLoop os nr_segments 0).andThen
      ((spawnLoop os (spawnBound nr_threads) 0).andThen (mainTail os.self fuel))

/-! ## Sample runs -/

/-- An operating system where every call succeeds and the parent stays
alive. -/
def osFine : OS :=
  { pid := 4242
    shm := fun i => ⟨i, 4096⟩
    setstacksize := fun _ => 0
    create := fun _ => 0
    self := ⟨0, fun _ => 0, fun k => 100 + k, fun _ => 0⟩ }

/-- Command line from the program name and two argument strings. -/
def cmdline (a b : String) : List (List Char) :=
  ["bust_shm_exit".toList, a.toList, b.toList]

/-! ## Definitions that follow the wording of the specification -/

/-- Multiplier as the specification words it: 1000 when the string contains
`k` or `K` anywhere, otherwise 1,000,000 when it contains `m` or `M` anywhere,
otherwise 1. -/
def multSpec (s : List Char) : Nat :=
  if 'k' ∈ s ∨ 'K' ∈ s then 1000
  else if 'm' ∈ s ∨ 'M' ∈ s then 1000000
  else 1

/-- Decimal digit `0`-`9`. -/
def isdigit (c : Char) : Bool := 48 ≤ c.toNat && c.toNat ≤ 57

/-- Removes one leading `+` or `-`, when there is one. -/
def dropSign : List Char → List Char
  | [] => []
  | c :: cs => if c = '+' ∨ c = '-' then cs else c :: cs

/-- The string begins, after optional leading white space and an optional
sign, with a numeral: decimal, octal and hexadecimal numerals all start with a
decimal digit. -/
def beginsWithNumeral (s : List Char) : Bool :=
  match dropSign (s.dropWhile isspace) with
  | [] => false
  | c :: _ => isdigit c

/-- Both calls of `new_shm_segment` succeed: `shmget` returns a non-negative
id and `shmat` an address other than `(void *)-1`. -/
def ShmReply.ok (r : ShmReply) : Bool := decide (0 ≤ r.shmid) && decide (r.shmaddr ≠ -1)

/-- Calls of a `new_shm_segment` that succeeds for segment `i`. -/
def segOk (os : OS) (i : Nat) : List Event :=
  [.shmget (keyOf i) 65536 (IPC_CREAT ||| (SHM_R ||| SHM_W)), .shmat (os.shm i).shmid]

/-- Calls of one spawn-loop iteration that succeeds: the new thread runs
`doit` with the pid as argument. -/
def spawnOk (os : OS) : List Event :=
  [.getpid, .attr_init, .attr_setstacksize PTHREAD_STACK_MIN, .create .doit (toULong os.pid)]

/-- Calls of iteration `k` of the worker loop when `pthread_create`
succeeds: create, join of the thread just created, sleep, probe. -/
def iterOk (w : WorkerOS) (pid : Int) (k : Nat) : List Event :=
  [.create .do_nothing 0, .join (w.tid k), .usleep 1000, .kill pid 0]

/-- Key and length of every `shmget` request of a trace, in order. -/
def shmgetRequests (t : List Event) : List (Int × Nat) :=
  t.filterMap fun e => match e with
    | .shmget key size _ => some (key, size)
    | _ => none

/-- The event is a `pthread_create`. -/
def isCreate : Event → Bool
  | .create _ _ => true
  | _ => false

/-- The event is a `pthread_create` of a throwaway child (`do_nothing`). -/
def isChild : Event → Bool
  | .create .do_nothing _ => true
  | _ => false

/-- The pids probed by the `kill` calls of a trace, in order. -/
def probedPids (t : List Event) : List Int :=
  t.filterMap fun e => match e with
    | .kill pid _ => some pid
    | _ => none

/-- The arguments handed to the threads created to run `doit`, in order. -/
def workerArgs (t : List Event) : List Nat :=
  t.filterMap fun e => match e with
    | .create .doit arg => some arg
    | _ => none

/-- Events that the segment loop can produce. -/
def isShmEvent : Event → Bool
  | .shmget _ _ _ => true
  | .shmat _ => true
  | .shmctl _ _ => true
  | .perror _ => true
  | _ => false

/-- Events that the spawn loop can produce when the thread argument is
`arg`. -/
def isSpawnEvent (arg : Nat) : Event → Bool
  | .getpid => true
  | .attr_init => true
  | .attr_setstacksize _ => true
  | .perror _ => true
  | .create r a => decide (r = .doit) && decide (a = arg)
  | _ => false

/-- Events that `doit` can produce when its parent pid is `pid`. -/
def isWorkerEvent (pid : Int) : Event → Bool
  | .attr_init => true
  | .attr_setstacksize _ => true
  | .perror _ => true
  | .join _ => true
  | .usleep _ => true
  | .create r _ => decide (r = .do_nothing)
  | .kill p _ => decide (p = pid)
  | _ => false

/-- An operating system as `osFine` whose pid is 4242 and where the parent of
the main-thread worker is reported gone at the third probe. -/
def osThirdProbe : OS :=
  { osFine with self := ⟨0, fun _ => 0, fun k => 100 + k, fun k => if k = 2 then -1 else 0⟩ }

/-- Calls of the spawn-loop iteration `i` that fails: at
`pthread_attr_setstacksize`, or else at `pthread_create`. -/
def spawnFail (os : OS) (i : Nat) : List Event :=
  if os.setstacksize i ≠ 0 then
    [.getpid, .attr_init, .attr_setstacksize PTHREAD_STACK_MIN,
      .perror "pthread_attr_setstacksize"]
  else
    [.getpid, .attr_init, .attr_setstacksize PTHREAD_STACK_MIN,
      .create .doit (toULong os.pid), .perror "pthread_create"]

/-- An operating system as `osFine` where `shmget` fails for segment 2. -/
def osShmgetFails : OS :=
  { osFine with shm := fun i => if i = 2 then ⟨-1, 0⟩ else ⟨i, 4096⟩ }

/-- An operating system as `osFine` where `pthread_create` fails in
iteration 2 of the spawn loop. -/
def osCreateFails : OS :=
  { osFine with create := fun i => if i = 2 then 11 else 0 }

/-! ## Lemmas on strings -/

theorem strchr_isSome_iff (s : List Char) (c : Char) (hc : c ≠ Char.ofNat 0) :
    (strchr s c).isSome = true ↔ c ∈ s := by
  induction s with
  | nil => simp [strchr, hc]
  | cons x xs ih =>
    by_cases hx : x = c
    · simp [strchr, hx]
    · have hx2 : ¬ c = x := fun h => hx h.symm
      simp [strchr, hx, hx2, ih]

theorem parse_size_eq_multSpec (s : List Char) :
    parse_size s = (strtoull s 0 * multSpec s) % 2 ^ 64 := by
  have hk := strchr_isSome_iff s 'k' (by decide)
  have hK := strchr_isSome_iff s 'K' (by decide)
  have hm := strchr_isSome_iff s 'm' (by decide)
  have hM := strchr_isSome_iff s 'M' (by decide)
  simp only [parse_size, multSpec, hk, hK, hm, hM, ULL]

theorem splitSign_snd (s : List Char) : (splitSign s).2 = dropSign s := by
  cases s with
  | nil => rfl
  | cons c cs =>
    by_cases h1 : c = '-'
    · simp [splitSign, dropSign, h1]
    · by_cases h2 : c = '+'
      · simp [splitSign, dropSign, h2]
      · simp [splitSign, dropSign, h1, h2]

theorem digitIn_ten_of_not_isdigit (c : Char) (h : isdigit c = false) :
    digitIn 10 c = none := by
  simp only [isdigit, Bool.and_eq_false_imp, decide_eq_true_eq, decide_eq_false_iff_not] at h
  unfold digitIn digitVal
  split_ifs with h1 h2 h3
  · exact absurd h1.2 (h h1.1)
  · simp only; rw [if_neg]; omega
  · simp only; rw [if_neg]; omega
  · rfl

theorem selectBase_of_not_isdigit (s : List Char)
    (h : ∀ c cs, s = c :: cs → isdigit c = false) : selectBase 0 s = (10, s) := by
  unfold selectBase
  split
  · exact absurd (h _ _ rfl) (by decide)
  · exact absurd (h _ _ rfl) (by decide)
  · rfl

theorem readDigits_of_not_isdigit (s : List Char)
    (h : ∀ c cs, s = c :: cs → isdigit c = false) : readDigits 10 s 0 false = (0, false) := by
  cases s with
  | nil => rfl
  | cons c cs => simp [readDigits, digitIn_ten_of_not_isdigit c (h c cs rfl)]

theorem strtoull_of_not_numeral (s : List Char) (h : beginsWithNumeral s = false) :
    strtoull s 0 = 0 := by
  have hd : ∀ c cs, (splitSign (s.dropWhile isspace)).2 = c :: cs → isdigit c = false := by
    intro c cs hc
    rw [splitSign_snd] at hc
    simpa [beginsWithNumeral, hc] using h
  unfold strtoull
  simp only [selectBase_of_not_isdigit _ hd, readDigits_of_not_isdigit _ hd]
  cases (splitSign (List.dropWhile isspace s)).1 <;> simp [ULLONG_MAX, ULL]

/-! ## Size-argument parsing -/

/-- Claim C1: for every string, `parse_size` is the number read by `strtoull`
with automatic base detection times the multiplier of the specification, as a
64-bit unsigned value; the `k` test wins when both letters occur; and the six
sample strings give 10, 2000, 2000, 3000000, 3000000 and 16. -/
theorem parse_size_spec :
    (∀ s : List Char, parse_size s = (strtoull s 0 * multSpec s) % 2 ^ 64) ∧
    (∀ s : List Char, ('k' ∈ s ∨ 'K' ∈ s) → ('m' ∈ s ∨ 'M' ∈ s) →
      parse_size s = (strtoull s 0 * 1000) % 2 ^ 64) ∧
    parse_size "10".toList = 10 ∧
    parse_size "2k".toList = 2000 ∧ parse_size "2K".toList = 2000 ∧
    parse_size "3m".toList = 3000000 ∧ parse_size "3M".toList = 3000000 ∧
    parse_size "0x10".toList = 16 ∧
    strtoull "010".toList 0 = 8 ∧ strtoull "0x1F".toList 0 = 31 := by
  refine ⟨parse_size_eq_multSpec, ?_, by decide, by decide, by decide, by decide, by decide,
    by decide, by decide, by decide⟩
  intro s hk _
  rw [parse_size_eq_multSpec, multSpec, if_pos hk]

/-- Witness for C1: a string with `m` before `k` still gets the multiplier
1000. -/
theorem parse_size_spec_witness : parse_size "3mk".toList = 3000 := by
  have h := parse_size_spec.2.1 "3mk".toList (by decide) (by decide)
  rw [h]; decide

/-- Claim C8: a string that does not begin, after optional white space and
sign, with a numeral parses to 0 whatever letters it contains, the same result
as for the literal `0`. -/
theorem parse_size_malformed (s : List Char) (h : beginsWithNumeral s = false) :
    parse_size s = 0 ∧ parse_size s = parse_size "0".toList ∧
    parse_size "".toList = 0 ∧ parse_size "abc".toList = 0 ∧
    parse_size "k".toList = 0 ∧ parse_size "m5".toList = 0 := by
  have h0 : parse_size s = 0 := by
    rw [parse_size_eq_multSpec, strtoull_of_not_numeral s h]; simp
  exact ⟨h0, by rw [h0]; decide, by decide, by decide, by decide, by decide⟩

/-- Witness for C8 at a string with white space, a sign and a suffix letter
before its first digit. -/
theorem parse_size_malformed_witness :
    beginsWithNumeral " -k9".toList = false ∧ parse_size " -k9".toList = 0 :=
  ⟨by decide, (parse_size_malformed " -k9".toList (by decide)).1⟩


/-! ## Lemmas on runs -/

theorem Run.andThen_done (t : List Event) (k : Run) :
    (Run.mk t .done).andThen k = ⟨t ++ k.trace, k.out⟩ := rfl

theorem Run.andThen_exit (t : List Event) (c : Int) (k : Run) :
    (Run.mk t (.exit c)).andThen k = ⟨t, .exit c⟩ := rfl

theorem Run.andThen_running (t : List Event) (k : Run) :
    (Run.mk t .running).andThen k = ⟨t, .running⟩ := rfl

theorem new_shm_segment_ok (r : ShmReply) (key : Int) (h : r.ok = true) :
    new_shm_segment r key
      = ⟨[.shmget key 65536 (IPC_CREAT ||| (SHM_R ||| SHM_W)), .shmat r.shmid], .done⟩ := by
  simp only [ShmReply.ok, Bool.and_eq_true, decide_eq_true_eq] at h
  simp [new_shm_segment, h.2, not_lt.mpr h.1, LENGTH]

theorem new_shm_segment_fail (r : ShmReply) (key : Int) (h : r.ok = false) :
    (new_shm_segment r key).out = .exit 1 := by
  simp only [ShmReply.ok, Bool.and_eq_false_imp, decide_eq_true_eq, decide_eq_false_iff_not,
    not_not] at h
  unfold new_shm_segment
  by_cases h1 : r.shmid < 0
  · simp [h1]
  · simp [h1, h (not_lt.mp h1)]

theorem segLoop_ok (os : OS) (n a : Nat)
    (h : ∀ i, a ≤ i → i < a + n → (os.shm i).ok = true) :
    segLoop os n a = ⟨(List.range' a n).flatMap (segOk os), .done⟩ := by
  induction n generalizing a with
  | zero => rfl
  | succ n ih =>
    have h0 := h a (Nat.le_refl a) (by omega)
    have ih1 := ih (a + 1) (fun i h1 h2 => h i (by omega) (by omega))
    rw [segLoop, new_shm_segment_ok _ _ h0, ih1, Run.andThen_done, List.range'_succ,
      List.flatMap_cons]
    rfl

theorem segLoop_fail (os : OS) (n a j : Nat) (hj : j < n)
    (h : ∀ i, a ≤ i → i < a + j → (os.shm i).ok = true)
    (hf : (os.shm (a + j)).ok = false) :
    segLoop os n a = ⟨(List.range' a j).flatMap (segOk os)
      ++ (new_shm_segment (os.shm (a + j)) (keyOf (a + j))).trace, .exit 1⟩ := by
  induction n generalizing a j with
  | zero => omega
  | succ n ih =>
    cases j with
    | zero =>
      have hx := new_shm_segment_fail (os.shm a) (keyOf a) hf
      have hr : ∀ r : Run, r.out = .exit 1 →
          r.andThen (segLoop os n (a + 1)) = ⟨r.trace, .exit 1⟩ := by
        rintro ⟨t, o⟩ ho
        simp only at ho
        subst ho
        rfl
      rw [segLoop, hr _ hx]
      simp
    | succ j =>
      have h0 := h a (Nat.le_refl a) (by omega)
      have hf1 : (os.shm (a + 1 + j)).ok = false := by
        rw [show a + 1 + j = a + (j + 1) by omega]; exact hf
      have ih1 := ih (a + 1) j (by omega) (fun i h1 h2 => h i (by omega) (by omega)) hf1
      rw [segLoop, new_shm_segment_ok _ _ h0, ih1, Run.andThen_done, List.range'_succ,
        List.flatMap_cons, show a + 1 + j = a + (j + 1) by omega]
      simp [segOk]

theorem spawnLoop_ok (os : OS) (n a : Nat)
    (h : ∀ i, a ≤ i → i < a + n → os.setstacksize i = 0 ∧ os.create i = 0) :
    spawnLoop os n a = ⟨(List.replicate n (spawnOk os)).flatten, .done⟩ := by
  induction n generalizing a with
  | zero => rfl
  | succ n ih =>
    have h0 := h a (Nat.le_refl a) (by omega)
    have ih1 := ih (a + 1) (fun i h1 h2 => h i (by omega) (by omega))
    simp [spawnLoop, h0.1, h0.2, ih1, Run.after, List.replicate_succ, spawnOk]

theorem doitLoop_returns (w : WorkerOS) (pid : Int) (k fuel a : Nat) (hfuel : k < fuel)
    (hc : ∀ i, a ≤ i → i ≤ a + k → w.create i = 0)
    (hk : ∀ i, a ≤ i → i < a + k → w.kill i = 0)
    (hl : w.kill (a + k) ≠ 0) :
    doitLoop w pid fuel a = ⟨(List.range' a (k + 1)).flatMap (iterOk w pid), .done⟩ := by
  induction k generalizing fuel a with
  | zero =>
    obtain ⟨f, rfl⟩ : ∃ f, fuel = f + 1 := ⟨fuel - 1, by omega⟩
    have h0 := hc a (Nat.le_refl a) (by omega)
    have hl0 : w.kill a ≠ 0 := hl
    simp [doitLoop, h0, hl0, iterOk]
  | succ k ih =>
    obtain ⟨f, rfl⟩ : ∃ f, fuel = f + 1 := ⟨fuel - 1, by omega⟩
    have h0 := hc a (Nat.le_refl a) (by omega)
    have h1 := hk a (Nat.le_refl a) (by omega)
    have hl1 : w.kill (a + 1 + k) ≠ 0 := by
      rw [show a + 1 + k = a + (k + 1) by omega]; exact hl
    have ih1 := ih f (a + 1) (by omega) (fun i h1 h2 => hc i (by omega) (by omega))
      (fun i h1 h2 => hk i (by omega) (by omega)) hl1
    rw [doitLoop, if_neg (by simpa using h0), if_neg (by simpa using h1), ih1,
      List.range'_succ a (k + 1), List.flatMap_cons]
    rfl


theorem Run.andThen_trace (r k : Run) :
    (r.andThen k).trace = r.trace ∨ (r.andThen k).trace = r.trace ++ k.trace := by
  obtain ⟨t, o⟩ := r
  cases o
  · exact Or.inr rfl
  · exact Or.inl rfl
  · exact Or.inl rfl

theorem Run.andThen_mem (r k : Run) (e : Event) (h : e ∈ (r.andThen k).trace) :
    e ∈ r.trace ∨ e ∈ k.trace := by
  rcases Run.andThen_trace r k with h1 | h1
  · rw [h1] at h; exact Or.inl h
  · rw [h1] at h; exact List.mem_append.mp h

theorem new_shm_segment_events (r : ShmReply) (key : Int) :
    ∀ e ∈ (new_shm_segment r key).trace, isShmEvent e = true := by
  unfold new_shm_segment
  simp only
  split_ifs <;> simp [isShmEvent]

theorem segLoop_events (os : OS) (n a : Nat) :
    ∀ e ∈ (segLoop os n a).trace, isShmEvent e = true := by
  induction n generalizing a with
  | zero => simp [segLoop]
  | succ n ih =>
    intro e he
    rw [segLoop] at he
    rcases Run.andThen_mem _ _ e he with h | h
    · exact new_shm_segment_events _ _ e h
    · exact ih _ e h

theorem spawnLoop_events (os : OS) (n a : Nat) :
    ∀ e ∈ (spawnLoop os n a).trace, isSpawnEvent (toULong os.pid) e = true := by
  induction n generalizing a with
  | zero => simp [spawnLoop]
  | succ n ih =>
    intro e he
    rw [spawnLoop] at he
    split_ifs at he
    · revert e; simp [isSpawnEvent]
    · revert e; simp [isSpawnEvent]
    · simp only [Run.after, List.mem_append] at he
      rcases he with h | h
      · revert e; simp [isSpawnEvent]
      · exact ih _ e h

theorem doitLoop_events (w : WorkerOS) (pid : Int) (fuel k : Nat) :
    ∀ e ∈ (doitLoop w pid fuel k).trace, isWorkerEvent pid e = true := by
  induction fuel generalizing k with
  | zero => simp [doitLoop]
  | succ f ih =>
    intro e he
    rw [doitLoop] at he
    split_ifs at he
    · revert e; simp [isWorkerEvent]
    · revert e; simp [isWorkerEvent]
    · simp only [Run.after, List.mem_append] at he
      rcases he with h | h
      · revert e; simp [isWorkerEvent]
      · exact ih _ e h

theorem doit_events (w : WorkerOS) (junk fuel : Nat) :
    ∀ e ∈ (doit w junk fuel).trace, isWorkerEvent (toInt32 junk) e = true := by
  intro e he
  unfold doit at he
  simp only at he
  split_ifs at he
  · revert e; simp [isWorkerEvent]
  · simp only [Run.after, List.mem_append] at he
    rcases he with h | h
    · revert e; simp [isWorkerEvent]
    · exact doitLoop_events _ _ _ _ e h

theorem main_events (os : OS) (argv : List (List Char)) (fuel : Nat) (h : argv.length = 3) :
    ∀ e ∈ (main os argv fuel).trace,
      isShmEvent e = true ∨ isSpawnEvent (toULong os.pid) e = true
        ∨ isWorkerEvent 0 e = true := by
  intro e he
  rw [main, if_neg (by simp [h])] at he
  rcases Run.andThen_mem _ _ e he with h1 | h1
  · exact Or.inl (segLoop_events _ _ _ e h1)
  · rcases Run.andThen_mem _ _ e h1 with h2 | h2
    · exact Or.inr (Or.inl (spawnLoop_events _ _ _ e h2))
    · rw [mainTail] at h2
      rcases Run.andThen_mem _ _ e h2 with h3 | h3
      · exact Or.inr (Or.inr (doit_events _ 0 _ e h3))
      · simp at h3

theorem mem_probedPids (t : List Event) (p : Int) :
    p ∈ probedPids t ↔ ∃ sig, Event.kill p sig ∈ t := by
  unfold probedPids
  rw [List.mem_filterMap]
  constructor
  · rintro ⟨e, he, hp⟩
    cases e <;> simp at hp
    subst hp
    exact ⟨_, he⟩
  · rintro ⟨sig, he⟩
    exact ⟨_, he, rfl⟩

theorem mem_workerArgs (t : List Event) (a : Nat) :
    a ∈ workerArgs t ↔ Event.create .doit a ∈ t := by
  unfold workerArgs
  rw [List.mem_filterMap]
  constructor
  · rintro ⟨e, he, hp⟩
    cases e with
    | create r b =>
      cases r <;> simp at hp
      subst hp
      exact he
    | _ => simp at hp
  · intro he
    exact ⟨_, he, rfl⟩

theorem toInt32_toULong (pid : Int) (h1 : -2 ^ 31 ≤ pid) (h2 : pid < 2 ^ 31) :
    toInt32 (toULong pid) = pid := by
  unfold toInt32 toULong
  have e1 : ((pid % 2 ^ 64).toNat : Int) = pid % 2 ^ 64 :=
    Int.toNat_of_nonneg (Int.emod_nonneg _ (by norm_num))
  generalize (pid % 2 ^ 64).toNat = x at e1 ⊢
  split_ifs with h <;> omega

theorem countP_isChild_iters (w : WorkerOS) (pid : Int) (a k : Nat) :
    ((List.range' a k).flatMap (iterOk w pid)).countP isChild = k := by
  induction k generalizing a with
  | zero => rfl
  | succ k ih =>
    rw [List.range'_succ, List.flatMap_cons, List.countP_append, ih]
    simp [iterOk, isChild, List.countP_cons]
    omega

theorem probedPids_iters (w : WorkerOS) (pid : Int) (a k : Nat) :
    probedPids ((List.range' a k).flatMap (iterOk w pid)) = List.replicate k pid := by
  induction k generalizing a with
  | zero => rfl
  | succ k ih =>
    have ih1 := ih (a + 1)
    unfold probedPids at ih1 ⊢
    rw [List.range'_succ, List.flatMap_cons, List.filterMap_append, ih1]
    simp [iterOk, List.replicate_succ]

theorem doit_returns (w : WorkerOS) (junk k fuel : Nat) (hk : 1 ≤ k) (hfuel : k ≤ fuel)
    (hs : w.setstacksize = 0) (hc : ∀ i, i < k → w.create i = 0)
    (halive : ∀ i, i < k - 1 → w.kill i = 0) (hdead : w.kill (k - 1) ≠ 0) :
    doit w junk fuel = ⟨[.attr_init, .attr_setstacksize PTHREAD_STACK_MIN]
      ++ (List.range' 0 k).flatMap (iterOk w (toInt32 junk)), .done⟩ := by
  obtain ⟨m, rfl⟩ : ∃ m, k = m + 1 := ⟨k - 1, by omega⟩
  have hl := doitLoop_returns w (toInt32 junk) m fuel 0 (by omega)
    (fun i _ h2 => hc i (by omega)) (fun i _ h2 => halive i (by omega))
    (by simpa using hdead)
  simp [doit, hs, hl, Run.after]

theorem parse_size_lt (s : List Char) : parse_size s < 2 ^ 64 := by
  unfold parse_size ULL
  exact Nat.mod_lt _ (by norm_num)

theorem spawnBound_of_pos (n : Nat) (h1 : 1 ≤ n) (h2 : n < 2 ^ 64) : spawnBound n = n - 1 := by
  unfold spawnBound ULL
  omega

theorem spawnBound_zero : spawnBound 0 = 2 ^ 64 - 1 := by
  unfold spawnBound ULL
  omega

theorem shmgetRequests_append (t u : List Event) :
    shmgetRequests (t ++ u) = shmgetRequests t ++ shmgetRequests u := by
  unfold shmgetRequests
  rw [List.filterMap_append]

theorem shmgetRequests_segs (os : OS) (a n : Nat) :
    shmgetRequests ((List.range' a n).flatMap (segOk os))
      = (List.range' a n).map (fun i => (keyOf i, 65536)) := by
  induction n generalizing a with
  | zero => rfl
  | succ n ih =>
    rw [List.range'_succ, List.flatMap_cons, shmgetRequests_append, ih, List.map_cons]
    rfl

theorem shmgetRequests_nil (t : List Event) (arg : Nat) (pid : Int)
    (h : ∀ e ∈ t, isSpawnEvent arg e = true ∨ isWorkerEvent pid e = true) :
    shmgetRequests t = [] := by
  unfold shmgetRequests
  rw [List.filterMap_eq_nil_iff]
  intro e he
  rcases h e he with h1 | h1 <;> cases e <;> simp_all [isSpawnEvent, isWorkerEvent]

theorem mainTail_events (w : WorkerOS) (fuel : Nat) :
    ∀ e ∈ (mainTail w fuel).trace, isWorkerEvent 0 e = true := by
  intro e he
  rw [mainTail] at he
  rcases Run.andThen_mem _ _ e he with h | h
  · exact doit_events _ 0 _ e h
  · simp at h

theorem mainTail_trace (w : WorkerOS) (fuel : Nat) :
    (mainTail w fuel).trace = (doit w 0 fuel).trace := by
  rw [mainTail]
  rcases Run.andThen_trace (doit w 0 fuel) ⟨[], .exit 0⟩ with h | h
  · exact h
  · simpa using h

theorem main_of_segments_ok (os : OS) (argv : List (List Char)) (fuel : Nat)
    (hargc : argv.length = 3)
    (hok : ∀ i, i < parse_size (argv.getD 1 []) → (os.shm i).ok = true) :
    main os argv fuel
      = ((spawnLoop os (spawnBound (parse_size (argv.getD 2 []))) 0).andThen
          (mainTail os.self fuel)).after
          ((List.range (parse_size (argv.getD 1 []))).flatMap (segOk os)) := by
  have h := segLoop_ok os (parse_size (argv.getD 1 [])) 0 (fun i _ h2 => hok i (by omega))
  rw [main, if_neg (by simp [hargc])]
  simp only [h, Run.andThen_done, Run.after, List.range_eq_range']

theorem main_requests (os : OS) (argv : List (List Char)) (fuel : Nat)
    (hargc : argv.length = 3)
    (hok : ∀ i, i < parse_size (argv.getD 1 []) → (os.shm i).ok = true) :
    shmgetRequests (main os argv fuel).trace
      = (List.range (parse_size (argv.getD 1 []))).map (fun i => (keyOf i, 65536)) := by
  rw [main_of_segments_ok os argv fuel hargc hok]
  simp only [Run.after, shmgetRequests_append, List.range_eq_range', shmgetRequests_segs]
  rw [shmgetRequests_nil _ (toULong os.pid) 0, List.append_nil]
  intro e he
  rcases Run.andThen_mem _ _ e he with h | h
  · exact Or.inl (spawnLoop_events _ _ _ e h)
  · exact Or.inr (mainTail_events _ _ e h)

theorem keyOf_small (i : Nat) (h : i < 0x70000000) : keyOf i = 0x10000000 + (i : Int) := by
  unfold keyOf toInt32 KEY_START ULL
  split_ifs with h1 <;> omega

theorem spawnLoop_fail (os : OS) (n a j : Nat) (hj : j < n)
    (h : ∀ i, a ≤ i → i < a + j → os.setstacksize i = 0 ∧ os.create i = 0)
    (hf : os.setstacksize (a + j) ≠ 0 ∨ os.create (a + j) ≠ 0) :
    spawnLoop os n a
      = ⟨(List.replicate j (spawnOk os)).flatten ++ spawnFail os (a + j), .exit 1⟩ := by
  induction n generalizing a j with
  | zero => omega
  | succ n ih =>
    cases j with
    | zero =>
      have hf0 : os.setstacksize a ≠ 0 ∨ os.create a ≠ 0 := hf
      by_cases h1 : os.setstacksize a = 0
      · have h2 : os.create a ≠ 0 := by
          rcases hf0 with h3 | h3
          · exact absurd h1 h3
          · exact h3
        simp [spawnLoop, spawnFail, h1, h2]
      · simp [spawnLoop, spawnFail, h1]
    | succ j =>
      have h0 := h a (Nat.le_refl a) (by omega)
      have hf1 : os.setstacksize (a + 1 + j) ≠ 0 ∨ os.create (a + 1 + j) ≠ 0 := by
        rw [show a + 1 + j = a + (j + 1) by omega]; exact hf
      have ih1 := ih (a + 1) j (by omega) (fun i h1 h2 => h i (by omega) (by omega)) hf1
      rw [show a + 1 + j = a + (j + 1) by omega] at ih1
      simp [spawnLoop, h0.1, h0.2, ih1, Run.after, List.replicate_succ, spawnOk]

theorem workerArgs_append (t u : List Event) :
    workerArgs (t ++ u) = workerArgs t ++ workerArgs u := by
  unfold workerArgs
  rw [List.filterMap_append]

theorem workerArgs_nil (t : List Event) (pid : Int)
    (h : ∀ e ∈ t, isShmEvent e = true ∨ isWorkerEvent pid e = true) :
    workerArgs t = [] := by
  unfold workerArgs
  rw [List.filterMap_eq_nil_iff]
  intro e he
  rcases h e he with h1 | h1 <;> cases e <;> simp_all [isShmEvent, isWorkerEvent]

theorem workerArgs_spawns (os : OS) (n : Nat) :
    workerArgs (List.replicate n (spawnOk os)).flatten = List.replicate n (toULong os.pid) := by
  induction n with
  | zero => rfl
  | succ n ih =>
    rw [List.replicate_succ, List.flatten_cons, workerArgs_append, ih, List.replicate_succ]
    rfl

theorem segs_events (os : OS) (n : Nat) :
    ∀ e ∈ (List.range n).flatMap (segOk os), isShmEvent e = true := by
  intro e he
  rw [List.mem_flatMap] at he
  obtain ⟨i, _, hi⟩ := he
  revert e
  simp [segOk, isShmEvent]

theorem probedPids_nil (t : List Event) (arg : Nat)
    (h : ∀ e ∈ t, isShmEvent e = true ∨ isSpawnEvent arg e = true) :
    probedPids t = [] := by
  unfold probedPids
  rw [List.filterMap_eq_nil_iff]
  intro e he
  rcases h e he with h1 | h1 <;> cases e <;> simp_all [isShmEvent, isSpawnEvent]

theorem countP_isChild_zero (t : List Event) (arg : Nat)
    (h : ∀ e ∈ t, isShmEvent e = true ∨ isSpawnEvent arg e = true) :
    t.countP isChild = 0 := by
  rw [List.countP_eq_zero]
  intro e he
  rcases h e he with h1 | h1
  · cases e <;> simp_all [isShmEvent, isChild]
  · cases e with
    | create r a => cases r <;> simp_all [isSpawnEvent, isChild]
    | _ => simp_all [isSpawnEvent, isChild]

theorem countP_isCreate_zero (t : List Event)
    (h : ∀ e ∈ t, isShmEvent e = true) : t.countP isCreate = 0 := by
  rw [List.countP_eq_zero]
  intro e he
  have h1 := h e he
  cases e <;> simp_all [isShmEvent, isCreate]

theorem main_of_argc_ne (os : OS) (argv : List (List Char)) (fuel : Nat)
    (h : argv.length ≠ 3) :
    main os argv fuel = ⟨[.fprintf_stderr usageText], .exit 1⟩ := by
  rw [main, if_pos h]

/-! ## Usage error -/

/-- Claim C3: with an argument count other than three (`argc != 3`) `main`
writes the usage message to standard error and exits with status 1; nothing
else is done before that: no segment, no thread. -/
theorem main_usage (os : OS) (argv : List (List Char)) (fuel : Nat) (h : argv.length ≠ 3) :
    main os argv fuel = ⟨[.fprintf_stderr usageText], .exit 1⟩ :=
  main_of_argc_ne os argv fuel h

/-- Witness for C3: no argument, one argument, three arguments. -/
theorem main_usage_witness :
    main osFine ["bust_shm_exit".toList] 9 = ⟨[.fprintf_stderr usageText], .exit 1⟩ ∧
    main osFine ["bust_shm_exit".toList, "4".toList] 9
      = ⟨[.fprintf_stderr usageText], .exit 1⟩ ∧
    main osFine ["bust_shm_exit".toList, "4".toList, "2".toList, "7".toList] 9
      = ⟨[.fprintf_stderr usageText], .exit 1⟩ :=
  ⟨main_usage _ _ _ (by decide), main_usage _ _ _ (by decide), main_usage _ _ _ (by decide)⟩

/-! ## Segment provisioning -/

/-- Claim C5: in `new_shm_segment`, when `shmget` succeeds and `shmat` fails
the calls are `shmget`, `shmat`, `perror`, then `shmctl(shmid, IPC_RMID)` on
the id that `shmget` returned, and the process exits with status 1; when
`shmget` fails neither `shmat` nor `shmctl` is called; when both succeed the
calls are `shmget` and `shmat` only. -/
theorem new_shm_segment_cases (r : ShmReply) (key : Int) :
    (0 ≤ r.shmid → r.shmaddr = -1 →
      new_shm_segment r key
        = ⟨[.shmget key 65536 (IPC_CREAT ||| (SHM_R ||| SHM_W)), .shmat r.shmid,
            .perror "shmat", .shmctl r.shmid IPC_RMID], .exit 1⟩) ∧
    (r.shmid < 0 →
      new_shm_segment r key
        = ⟨[.shmget key 65536 (IPC_CREAT ||| (SHM_R ||| SHM_W)), .perror "shmget"],
            .exit 1⟩) ∧
    (0 ≤ r.shmid → r.shmaddr ≠ -1 →
      new_shm_segment r key
        = ⟨[.shmget key 65536 (IPC_CREAT ||| (SHM_R ||| SHM_W)), .shmat r.shmid],
            .done⟩) := by
  refine ⟨?_, ?_, ?_⟩
  · intro h1 h2
    simp [new_shm_segment, not_lt.mpr h1, h2, LENGTH]
  · intro h1
    simp [new_shm_segment, h1, LENGTH]
  · intro h1 h2
    simp [new_shm_segment, not_lt.mpr h1, h2, LENGTH]

/-- Witness for C5: `shmget` returns id 7 and `shmat` fails. -/
theorem new_shm_segment_cases_witness :
    new_shm_segment ⟨7, -1⟩ 268435456
      = ⟨[.shmget 268435456 65536 896, .shmat 7, .perror "shmat", .shmctl 7 0], .exit 1⟩ :=
  (new_shm_segment_cases ⟨7, -1⟩ 268435456).1 (by decide) (by decide)


/-- Amended claim C2: when every `shmget` and `shmat` call succeeds, `main`
requests exactly `nr_segments` segments, the `i`-th with length 65536 and with
key `KEY_START + i` converted to `int`; for `nr_segments` up to `0x70000000`
that key is `0x10000000 + i`, so the keys are a contiguous range from the
base, strictly increasing and pairwise distinct. -/
theorem main_segments (os : OS) (argv : List (List Char)) (fuel : Nat)
    (hargc : argv.length = 3)
    (hok : ∀ i, i < parse_size (argv.getD 1 []) → (os.shm i).ok = true) :
    shmgetRequests (main os argv fuel).trace
      = (List.range (parse_size (argv.getD 1 []))).map (fun i => (keyOf i, 65536)) ∧
    (parse_size (argv.getD 1 []) ≤ 0x70000000 →
      shmgetRequests (main os argv fuel).trace
        = (List.range (parse_size (argv.getD 1 []))).map
            (fun (i : Nat) => ((0x10000000 : Int) + (i : Int), (65536 : Nat))) ∧
      ((shmgetRequests (main os argv fuel).trace).map Prod.fst).Pairwise (· < ·) ∧
      ((shmgetRequests (main os argv fuel).trace).map Prod.fst).Nodup) := by
  have h := main_requests os argv fuel hargc hok
  refine ⟨h, ?_⟩
  intro hn
  have h2 : shmgetRequests (main os argv fuel).trace
      = (List.range (parse_size (argv.getD 1 []))).map
          (fun (i : Nat) => ((0x10000000 : Int) + (i : Int), (65536 : Nat))) := by
    rw [h]
    apply List.map_congr_left
    intro i hi
    rw [keyOf_small i (by have := List.mem_range.mp hi; omega)]
  have h3 : ((shmgetRequests (main os argv fuel).trace).map Prod.fst).Pairwise (· < ·) := by
    rw [h2, List.map_map]
    exact (List.pairwise_lt_range _).map _ (fun a b hab => by
      simp only [Function.comp]
      have : (a : Int) < (b : Int) := by exact_mod_cast hab
      omega)
  exact ⟨h2, h3, h3.imp (fun hab => ne_of_lt hab)⟩

/-- Witness for C2: three segments. -/
theorem main_segments_witness :
    shmgetRequests (main osFine (cmdline "3" "2") 4).trace
      = [(0x10000000, 65536), (0x10000001, 65536), (0x10000002, 65536)] := by
  have h := ((main_segments osFine (cmdline "3" "2") 4 (by decide) (by decide)).2
    (by decide)).1
  rw [h]
  decide

/-- Counterexample to claim C2 as stated: with 1879048193 segments and every
call succeeding, the key of the segment with index 1879048192 is not
`0x10000000 + 1879048192`; the `int` parameter holds -2147483648. -/
theorem main_segment_keys_false :
    ¬ ∀ (os : OS) (argv : List (List Char)) (fuel : Nat), argv.length = 3 →
        (∀ i, i < parse_size (argv.getD 1 []) → (os.shm i).ok = true) →
        shmgetRequests (main os argv fuel).trace
          = (List.range (parse_size (argv.getD 1 []))).map
              (fun (i : Nat) => ((0x10000000 : Int) + (i : Int), (65536 : Nat))) := by
  intro h
  have hok : ∀ i, i < parse_size ((cmdline "1879048193" "1").getD 1 []) →
      (osFine.shm i).ok = true := by
    intro i _
    simp [osFine, ShmReply.ok]
  have h1 := h osFine (cmdline "1879048193" "1") 0 (by decide) hok
  rw [main_requests osFine _ 0 (by decide) hok] at h1
  have hn : parse_size ((cmdline "1879048193" "1").getD 1 []) = 1879048193 := by decide
  rw [hn] at h1
  have h2 := congrArg (fun l => l[1879048192]?) h1
  simp only [List.getElem?_map] at h2
  rw [List.getElem?_range (by norm_num)] at h2
  simp only [Option.map_some', Option.some.injEq, Prod.mk.injEq, and_true] at h2
  revert h2
  decide

/-- Claim C4: when `shmget` or `shmat` fails for the segment with index `j`,
`main` exits with status 1 there: segments `0..j` were requested and no
other, the trace ends with the calls of the failing `new_shm_segment`, and no
thread is created.  The exit status is also 1 for the usage error, for a
failing `pthread_attr_setstacksize` or `pthread_create` in the spawn loop, and
for either of them failing in `doit`, on the main thread as well. -/
theorem shm_failure_exits (os : OS) (argv : List (List Char)) (fuel j : Nat)
    (hargc : argv.length = 3) (hj : j < parse_size (argv.getD 1 []))
    (hok : ∀ i, i < j → (os.shm i).ok = true) (hfail : (os.shm j).ok = false) :
    (main os argv fuel).out = .exit 1 ∧
    (main os argv fuel).trace
      = (List.range j).flatMap (segOk os) ++ (new_shm_segment (os.shm j) (keyOf j)).trace ∧
    shmgetRequests (main os argv fuel).trace
      = (List.range (j + 1)).map (fun i => (keyOf i, 65536)) ∧
    (main os argv fuel).trace.countP isCreate = 0 ∧
    (∀ argv2 : List (List Char), argv2.length ≠ 3 → (main os argv2 fuel).out = .exit 1) ∧
    (∀ (os2 : OS) (i : Nat), i < spawnBound (parse_size (argv.getD 2 [])) →
      (∀ n, n < parse_size (argv.getD 1 []) → (os2.shm n).ok = true) →
      (∀ n, n < i → os2.setstacksize n = 0 ∧ os2.create n = 0) →
      (os2.setstacksize i ≠ 0 ∨ os2.create i ≠ 0) →
      (main os2 argv fuel).out = .exit 1) ∧
    (∀ (w : WorkerOS) (junk f : Nat), w.setstacksize ≠ 0 →
      (doit w junk f).out = .exit 1) ∧
    (∀ (w : WorkerOS) (junk f k : Nat), k < f → w.setstacksize = 0 →
      (∀ n, n < k → w.create n = 0 ∧ w.kill n = 0) → w.create k ≠ 0 →
      (doit w junk f).out = .exit 1) ∧
    (∀ os2 : OS, (∀ n, n < parse_size (argv.getD 1 []) → (os2.shm n).ok = true) →
      (∀ n, n < spawnBound (parse_size (argv.getD 2 [])) →
        os2.setstacksize n = 0 ∧ os2.create n = 0) →
      (doit os2.self 0 fuel).out = .exit 1 → (main os2 argv fuel).out = .exit 1) := by
  have hm : main os argv fuel = ⟨(List.range j).flatMap (segOk os)
      ++ (new_shm_segment (os.shm j) (keyOf j)).trace, .exit 1⟩ := by
    have h := segLoop_fail os (parse_size (argv.getD 1 [])) 0 j hj
      (fun i _ h2 => hok i (by omega)) (by simpa using hfail)
    rw [main, if_neg (by simp [hargc])]
    simp only [h, Run.andThen_exit, List.range_eq_range', Nat.zero_add]
  have hreq : shmgetRequests (new_shm_segment (os.shm j) (keyOf j)).trace
      = [(keyOf j, 65536)] := by
    unfold new_shm_segment
    simp only
    split_ifs <;> simp [shmgetRequests, LENGTH]
  refine ⟨by rw [hm], by rw [hm], ?_, ?_, ?_, ?_, ?_, ?_, ?_⟩
  · rw [hm]
    simp only [shmgetRequests_append, List.range_eq_range', shmgetRequests_segs, hreq,
      List.range'_concat, List.map_append]
    simp
  · rw [hm]
    apply countP_isCreate_zero
    intro e he
    rcases List.mem_append.mp he with h | h
    · exact segs_events os j e h
    · exact new_shm_segment_events _ _ e h
  · intro argv2 h2
    rw [main_of_argc_ne os argv2 fuel h2]
  · intro os2 i hi hseg hs hf
    have h := spawnLoop_fail os2 (spawnBound (parse_size (argv.getD 2 []))) 0 i hi
      (fun n _ h2 => hs n (by omega)) (by simpa using hf)
    rw [main_of_segments_ok os2 argv fuel hargc hseg, h]
    rfl
  · intro w junk f hw
    simp [doit, hw]
  · intro w junk f k hk hw hs hc
    have hl : ∀ (k f a : Nat) (pid : Int), k < f →
        (∀ n, a ≤ n → n < a + k → w.create n = 0 ∧ w.kill n = 0) → w.create (a + k) ≠ 0 →
        (doitLoop w pid f a).out = .exit 1 := by
      intro k
      induction k with
      | zero =>
        intro f a pid h1 _ h3
        obtain ⟨g, rfl⟩ : ∃ g, f = g + 1 := ⟨f - 1, by omega⟩
        have h4 : w.create a ≠ 0 := h3
        simp [doitLoop, h4]
      | succ k ih =>
        intro f a pid h1 h2 h3
        obtain ⟨g, rfl⟩ : ∃ g, f = g + 1 := ⟨f - 1, by omega⟩
        have h0 := h2 a (Nat.le_refl a) (by omega)
        have h5 := ih g (a + 1) pid (by omega) (fun n h6 h7 => h2 n (by omega) (by omega))
          (by rw [show a + 1 + k = a + (k + 1) by omega]; exact h3)
        simp [doitLoop, h0.1, h0.2, Run.after, h5]
    have h := hl k f 0 (toInt32 junk) hk (fun n _ h2 => hs n (by omega)) (by simpa using hc)
    simp [doit, hw, Run.after, h]
  · intro os2 hseg hs hd
    have h := spawnLoop_ok os2 (spawnBound (parse_size (argv.getD 2 []))) 0
      (fun n _ h2 => hs n (by omega))
    rw [main_of_segments_ok os2 argv fuel hargc hseg, h, Run.andThen_done, mainTail]
    generalize doit os2.self 0 fuel = r at hd
    obtain ⟨t, o⟩ := r
    simp only at hd
    subst hd
    rfl

/-- Witness for C4: five segments requested, `shmget` fails for the one with
index 2. -/
theorem shm_failure_exits_witness :
    main osShmgetFails (cmdline "5" "4") 3
      = ⟨[.shmget 0x10000000 65536 896, .shmat 0, .shmget 0x10000001 65536 896, .shmat 1,
          .shmget 0x10000002 65536 896, .perror "shmget"], .exit 1⟩ := by
  have h := shm_failure_exits osShmgetFails (cmdline "5" "4") 3 2 (by decide) (by decide)
    (by decide) (by decide)
  have h1 : (main osShmgetFails (cmdline "5" "4") 3).trace
      = [.shmget 0x10000000 65536 896, .shmat 0, .shmget 0x10000001 65536 896, .shmat 1,
          .shmget 0x10000002 65536 896, .perror "shmget"] := by
    rw [h.2.1]; decide
  have h2 := h.1
  generalize main osShmgetFails (cmdline "5" "4") 3 = r at h1 h2
  obtain ⟨t, o⟩ := r
  simp only at h1 h2
  rw [h1, h2]

/-! ## Spawning the workers -/

theorem main_of_all_ok (os : OS) (argv : List (List Char)) (fuel : Nat)
    (hargc : argv.length = 3)
    (hseg : ∀ i, i < parse_size (argv.getD 1 []) → (os.shm i).ok = true)
    (hspawn : ∀ i, i < spawnBound (parse_size (argv.getD 2 [])) →
      os.setstacksize i = 0 ∧ os.create i = 0) :
    main os argv fuel
      = ((doit os.self 0 fuel).andThen ⟨[], .exit 0⟩).after
          ((List.range (parse_size (argv.getD 1 []))).flatMap (segOk os)
            ++ (List.replicate (spawnBound (parse_size (argv.getD 2 []))) (spawnOk os)).flatten)
      := by
  have h := spawnLoop_ok os (spawnBound (parse_size (argv.getD 2 []))) 0
    (fun n _ h2 => hspawn n (by omega))
  rw [main_of_segments_ok os argv fuel hargc hseg, h, Run.andThen_done, mainTail]
  simp [Run.after]

theorem workerArgs_main_of_all_ok (os : OS) (argv : List (List Char)) (fuel : Nat)
    (hargc : argv.length = 3)
    (hseg : ∀ i, i < parse_size (argv.getD 1 []) → (os.shm i).ok = true)
    (hspawn : ∀ i, i < spawnBound (parse_size (argv.getD 2 [])) →
      os.setstacksize i = 0 ∧ os.create i = 0) :
    workerArgs (main os argv fuel).trace
      = List.replicate (spawnBound (parse_size (argv.getD 2 []))) (toULong os.pid) := by
  have hs : workerArgs ((List.range (parse_size (argv.getD 1 []))).flatMap (segOk os)) = [] :=
    workerArgs_nil _ 0 (fun e he => Or.inl (segs_events os _ e he))
  have ht : workerArgs ((doit os.self 0 fuel).andThen ⟨[], .exit 0⟩).trace = [] :=
    workerArgs_nil _ 0 (fun e he => Or.inr (mainTail_events os.self fuel e he))
  rw [main_of_all_ok os argv fuel hargc hseg hspawn]
  show workerArgs (_ ++ _ ++ _) = _
  rw [workerArgs_append, workerArgs_append, workerArgs_spawns, hs, ht, List.nil_append,
    List.append_nil]

/-- Claim C6: with `nr_threads = N ≥ 1` and every call of the setup
succeeding, the calls of `main` are those of the segments, then those of
`N - 1` spawn iterations, each creating a thread that runs `doit` with the pid
returned by `getpid()`, and then `doit` itself on the main thread: `N` worker
loops in all. -/
theorem main_workers (os : OS) (argv : List (List Char)) (fuel : Nat)
    (hargc : argv.length = 3)
    (hseg : ∀ i, i < parse_size (argv.getD 1 []) → (os.shm i).ok = true)
    (hN : 1 ≤ parse_size (argv.getD 2 []))
    (hspawn : ∀ i, i < parse_size (argv.getD 2 []) - 1 →
      os.setstacksize i = 0 ∧ os.create i = 0) :
    main os argv fuel
      = ((doit os.self 0 fuel).andThen ⟨[], .exit 0⟩).after
          ((List.range (parse_size (argv.getD 1 []))).flatMap (segOk os)
            ++ (List.replicate (parse_size (argv.getD 2 []) - 1) (spawnOk os)).flatten) ∧
    workerArgs (main os argv fuel).trace
      = List.replicate (parse_size (argv.getD 2 []) - 1) (toULong os.pid) ∧
    (workerArgs (main os argv fuel).trace).length + 1 = parse_size (argv.getD 2 []) := by
  have hb := spawnBound_of_pos _ hN (parse_size_lt (argv.getD 2 []))
  have hs : ∀ i, i < spawnBound (parse_size (argv.getD 2 [])) →
      os.setstacksize i = 0 ∧ os.create i = 0 := by
    rw [hb]; exact hspawn
  have h1 := main_of_all_ok os argv fuel hargc hseg hs
  have h2 := workerArgs_main_of_all_ok os argv fuel hargc hseg hs
  rw [hb] at h1 h2
  refine ⟨h1, h2, ?_⟩
  rw [h2, List.length_replicate]
  omega

/-- Witness for C6: two segments and three threads, fuel for one iteration of
the main-thread worker. -/
theorem main_workers_witness :
    main osFine (cmdline "2" "3") 1
      = ⟨[.shmget 0x10000000 65536 896, .shmat 0, .shmget 0x10000001 65536 896, .shmat 1,
          .getpid, .attr_init, .attr_setstacksize PTHREAD_STACK_MIN, .create .doit 4242,
          .getpid, .attr_init, .attr_setstacksize PTHREAD_STACK_MIN, .create .doit 4242,
          .attr_init, .attr_setstacksize PTHREAD_STACK_MIN,
          .create .do_nothing 0, .join 100, .usleep 1000, .kill 0 0], .running⟩ := by
  have h := (main_workers osFine (cmdline "2" "3") 1 (by decide) (by decide) (by decide)
    (by decide)).1
  rw [h]
  decide

/-- Claim C10: when the thread count parses to 0 the bound `nr_threads - 1`
of the spawn loop is `2 ^ 64 - 1`.  `main` then goes on creating workers; when
`pthread_create` fails in iteration `j` it has made `j + 1` attempts and exits
with status 1 without a probe or a child thread, that is without reaching the
worker loop of the main thread.  In general the bound is
`(nr_threads - 1) mod 2 ^ 64`, and that many workers are created when every
call succeeds. -/
theorem spawn_bound_wraps (os : OS) (argv : List (List Char)) (fuel j : Nat)
    (hargc : argv.length = 3) (h0 : parse_size (argv.getD 2 []) = 0)
    (hseg : ∀ i, i < parse_size (argv.getD 1 []) → (os.shm i).ok = true)
    (hj : j < 2 ^ 64 - 1)
    (hok : ∀ i, i < j → os.setstacksize i = 0 ∧ os.create i = 0)
    (hset : os.setstacksize j = 0) (hfail : os.create j ≠ 0) :
    spawnBound (parse_size (argv.getD 2 [])) = 2 ^ 64 - 1 ∧
    main os argv fuel
      = ⟨(List.range (parse_size (argv.getD 1 []))).flatMap (segOk os)
          ++ (List.replicate j (spawnOk os)).flatten
          ++ [.getpid, .attr_init, .attr_setstacksize PTHREAD_STACK_MIN,
              .create .doit (toULong os.pid), .perror "pthread_create"], .exit 1⟩ ∧
    (workerArgs (main os argv fuel).trace).length = j + 1 ∧
    probedPids (main os argv fuel).trace = [] ∧
    (main os argv fuel).trace.countP isChild = 0 ∧
    (∀ n : Nat, n < 2 ^ 64 → (spawnBound n : Int) = ((n : Int) - 1) % 2 ^ 64) ∧
    (∀ (os2 : OS) (argv2 : List (List Char)), argv2.length = 3 →
      (∀ i, i < parse_size (argv2.getD 1 []) → (os2.shm i).ok = true) →
      (∀ i, i < spawnBound (parse_size (argv2.getD 2 [])) →
        os2.setstacksize i = 0 ∧ os2.create i = 0) →
      (workerArgs (main os2 argv2 fuel).trace).length
        = spawnBound (parse_size (argv2.getD 2 []))) ∧
    parse_size "0".toList = 0 ∧ parse_size "abc".toList = 0 := by
  have hb : spawnBound (parse_size (argv.getD 2 [])) = 2 ^ 64 - 1 := by
    rw [h0, spawnBound_zero]
  have hsf : spawnFail os j = [.getpid, .attr_init, .attr_setstacksize PTHREAD_STACK_MIN,
      .create .doit (toULong os.pid), .perror "pthread_create"] := by
    simp [spawnFail, hset]
  have hm : main os argv fuel
      = ⟨(List.range (parse_size (argv.getD 1 []))).flatMap (segOk os)
          ++ (List.replicate j (spawnOk os)).flatten
          ++ [.getpid, .attr_init, .attr_setstacksize PTHREAD_STACK_MIN,
              .create .doit (toULong os.pid), .perror "pthread_create"], .exit 1⟩ := by
    have h := spawnLoop_fail os (spawnBound (parse_size (argv.getD 2 []))) 0 j
      (by rw [hb]; exact hj) (fun n _ h2 => hok n (by omega)) (Or.inr (by simpa using hfail))
    rw [main_of_segments_ok os argv fuel hargc hseg, h, Run.andThen_exit]
    simp [Run.after, hsf]
  have hev : ∀ e ∈ (main os argv fuel).trace,
      isShmEvent e = true ∨ isSpawnEvent (toULong os.pid) e = true := by
    intro e he
    rw [hm] at he
    simp only [List.mem_append] at he
    rcases he with (h | h) | h
    · exact Or.inl (segs_events os _ e h)
    · obtain ⟨l, hl, hel⟩ := List.mem_flatten.mp h
      rw [List.eq_of_mem_replicate hl] at hel
      right
      simp only [spawnOk, List.mem_cons, List.mem_singleton, List.not_mem_nil, or_false] at hel
      rcases hel with rfl | rfl | rfl | rfl <;> simp [isSpawnEvent]
    · revert e
      simp [isSpawnEvent]
  refine ⟨hb, hm, ?_, probedPids_nil _ _ hev, countP_isChild_zero _ _ hev, ?_, ?_,
    by decide, by decide⟩
  · have hs : workerArgs ((List.range (parse_size (argv.getD 1 []))).flatMap (segOk os))
        = [] := workerArgs_nil _ 0 (fun e he => Or.inl (segs_events os _ e he))
    rw [hm]
    show (workerArgs (_ ++ _ ++ _)).length = _
    rw [workerArgs_append, workerArgs_append, workerArgs_spawns, hs, List.nil_append,
      List.length_append, List.length_replicate]
    rfl
  · intro n hn
    unfold spawnBound ULL
    omega
  · intro os2 argv2 h1 h2 h3
    rw [workerArgs_main_of_all_ok os2 argv2 fuel h1 h2 h3, List.length_replicate]

/-- Witness for C10: thread count `abc`, `pthread_create` fails in iteration
2 of the spawn loop. -/
theorem spawn_bound_wraps_witness :
    main osCreateFails (cmdline "1" "abc") 3
      = ⟨[.shmget 0x10000000 65536 896, .shmat 0,
          .getpid, .attr_init, .attr_setstacksize PTHREAD_STACK_MIN, .create .doit 4242,
          .getpid, .attr_init, .attr_setstacksize PTHREAD_STACK_MIN, .create .doit 4242,
          .getpid, .attr_init, .attr_setstacksize PTHREAD_STACK_MIN, .create .doit 4242,
          .perror "pthread_create"], .exit 1⟩ := by
  have h := (spawn_bound_wraps osCreateFails (cmdline "1" "abc") 3 2 (by decide) (by decide)
    (by decide) (by decide) (by decide) (by decide) (by decide)).2.1
  rw [h]
  decide

/-! ## Worker loop -/

/-- Claim C7: the worker loop over a sequence of probe results.  When the
first failing probe `kill(parent_pid, 0)` is the `k`-th (`k ≥ 1`) and thread
creation succeeds, `doit` returns, given fuel for `k` iterations, after
exactly `k` rounds of create, join of the thread just created, 1000
microsecond sleep, probe: `k` children, each joined before the next is
created, and nothing after the failing probe.  The first create and join come
before the first probe whatever the probe answers. -/
theorem doit_probe (w : WorkerOS) (junk k fuel : Nat) (hk : 1 ≤ k) (hfuel : k ≤ fuel)
    (hs : w.setstacksize = 0) (hc : ∀ i, i < k → w.create i = 0)
    (halive : ∀ i, i < k - 1 → w.kill i = 0) (hdead : w.kill (k - 1) ≠ 0) :
    doit w junk fuel = ⟨[.attr_init, .attr_setstacksize PTHREAD_STACK_MIN]
      ++ (List.range k).flatMap (fun i =>
          [.create .do_nothing 0, .join (w.tid i), .usleep 1000, .kill (toInt32 junk) 0]),
      .done⟩ ∧
    (doit w junk fuel).trace.countP isChild = k ∧
    probedPids (doit w junk fuel).trace = List.replicate k (toInt32 junk) ∧
    (∀ (w2 : WorkerOS) (f : Nat), w2.setstacksize = 0 → w2.create 0 = 0 →
      (doit w2 junk (f + 1)).trace.take 6
        = [.attr_init, .attr_setstacksize PTHREAD_STACK_MIN, .create .do_nothing 0,
            .join (w2.tid 0), .usleep 1000, .kill (toInt32 junk) 0]) := by
  have h := doit_returns w junk k fuel hk hfuel hs hc halive hdead
  refine ⟨?_, ?_, ?_, ?_⟩
  · rw [h, List.range_eq_range']; rfl
  · rw [h]
    simp only [List.countP_append, countP_isChild_iters]
    simp [isChild, List.countP_cons]
  · rw [h]
    have := probedPids_iters w (toInt32 junk) 0 k
    unfold probedPids at this ⊢
    simp only [List.filterMap_append, this]
    simp
  · intro w2 f h1 h2
    by_cases h3 : w2.kill 0 = 0
    · simp [doit, doitLoop, h1, h2, h3, Run.after]
    · simp [doit, doitLoop, h1, h2, h3, Run.after]

/-- Witness for C7: the parent is reported gone at the third probe. -/
theorem doit_probe_witness :
    doit osThirdProbe.self 4242 7
      = ⟨[.attr_init, .attr_setstacksize PTHREAD_STACK_MIN,
          .create .do_nothing 0, .join 100, .usleep 1000, .kill 4242 0,
          .create .do_nothing 0, .join 101, .usleep 1000, .kill 4242 0,
          .create .do_nothing 0, .join 102, .usleep 1000, .kill 4242 0], .done⟩ :=
  (doit_probe osThirdProbe.self 4242 3 7 (by decide) (by decide) (by decide)
    (by decide) (by decide) (by decide)).1

/-- Amended claim C9: the worker loop that `main` runs on the main thread is
called with a null argument, so every pid it probes with `kill(pid, 0)` is 0,
not the pid of the program; every thread that `main` creates to run `doit`
gets the pid returned by `getpid()` as argument, and a `doit` called with an
argument probes that argument converted to `int`, which for a pid in the range
of `int` is the pid itself. -/
theorem main_probes_pid_zero (os : OS) (argv : List (List Char)) (fuel : Nat) :
    (∀ p ∈ probedPids (main os argv fuel).trace, p = 0) ∧
    (∀ a ∈ workerArgs (main os argv fuel).trace, a = toULong os.pid) ∧
    (∀ (w : WorkerOS) (junk f : Nat), ∀ p ∈ probedPids (doit w junk f).trace,
      p = toInt32 junk) ∧
    (-2 ^ 31 ≤ os.pid → os.pid < 2 ^ 31 → toInt32 (toULong os.pid) = os.pid) := by
  refine ⟨?_, ?_, ?_, toInt32_toULong os.pid⟩
  · intro p hp
    obtain ⟨sig, he⟩ := (mem_probedPids _ _).mp hp
    by_cases h : argv.length = 3
    · rcases main_events os argv fuel h _ he with h1 | h1 | h1
      · simp [isShmEvent] at h1
      · simp [isSpawnEvent] at h1
      · simpa [isWorkerEvent] using h1
    · rw [main_of_argc_ne os argv fuel h] at he
      simp at he
  · intro a ha
    have he := (mem_workerArgs _ _).mp ha
    by_cases h : argv.length = 3
    · rcases main_events os argv fuel h _ he with h1 | h1 | h1
      · simp [isShmEvent] at h1
      · simpa [isSpawnEvent] using h1
      · simp [isWorkerEvent] at h1
    · rw [main_of_argc_ne os argv fuel h] at he
      simp at he
  · intro w junk f p hp
    obtain ⟨sig, he⟩ := (mem_probedPids _ _).mp hp
    simpa [isWorkerEvent] using doit_events w junk f _ he

/-- Witness for C9: three threads requested, pid 4242; the main thread probes
pid 0 three times and the two spawned workers are handed 4242. -/
theorem main_probes_pid_zero_witness :
    probedPids (main osThirdProbe (cmdline "1" "3") 5).trace = [0, 0, 0] ∧
    workerArgs (main osThirdProbe (cmdline "1" "3") 5).trace = [4242, 4242] ∧
    (∀ p ∈ probedPids (main osThirdProbe (cmdline "1" "3") 5).trace, p = 0) ∧
    toInt32 (toULong osThirdProbe.pid) = osThirdProbe.pid :=
  ⟨by decide, by decide, (main_probes_pid_zero osThirdProbe (cmdline "1" "3") 5).1,
    (main_probes_pid_zero osThirdProbe (cmdline "1" "3") 5).2.2.2 (by decide) (by decide)⟩

/-- Counterexample to claim C9 as stated: with pid 4242 the pid probed by the
worker loop of the main thread is 0, not 4242. -/
theorem main_probes_own_pid_false :
    ¬ ∀ (os : OS) (argv : List (List Char)) (fuel : Nat),
        ∀ p ∈ probedPids (main os argv fuel).trace, p = os.pid := by
  intro h
  have h1 := h osFine (cmdline "0" "1") 1 0 (by decide)
  revert h1
  decide


end BustShmExit
